import Mathlib

/-!
Verification of the replication-convergence and consistency-verification
engine of the ReplSetTest harness (src/src/mongo/shell/replsettest.js),
as a shallow embedding in Lean 4.

Each definition is translated from the JavaScript source; line numbers in
the doc comments refer to src/src/mongo/shell/replsettest.js. The whole
constructor body runs under a top-level use-strict directive (line 67),
which matters for the semantics of callbacks that mention the keyword
this: a strict-mode function invoked without a receiver sees this as
undefined, so a property access on it throws a TypeError.
-/

namespace ReplSet

/-! ## OperationTime: timestamps, optimes, and their ordering
    (source lines 328-349) -/

/-- A shell Timestamp object: it exposes its seconds and its ordinal
within the second as the numeric properties t and i (read directly at
lines 813 and 1480), with getTime and getInc returning the same values. -/
structure Timestamp where
  t : Nat
  i : Nat
deriving DecidableEq

/-- Source lines 328-333, function isEarlierTimestamp underscore-prefixed:
equal seconds compare the ordinal, otherwise the seconds decide. -/
def isEarlierTimestamp (ts1 ts2 : Timestamp) : Bool :=
  if ts1.t = ts2.t then ts1.i < ts2.i
  else ts1.t < ts2.t

/-- An operation-time value as the comparison functions receive it: either
a bare Timestamp (protocol-version-0 style, no surrounding ts/t document)
or a document with a ts field and a NumberLong term. -/
inductive OpTimeVal where
  | bare (ts : Timestamp)
  | withTerm (ts : Timestamp) (term : Int)
deriving DecidableEq

/-- The value sitting in the t slot of an operand after the wrap at lines
337-338: a NumberLong object, or — for a bare Timestamp left unwrapped —
the plain number of its seconds. -/
inductive TermVal where
  | numberLong (x : Int)
  | plainNum (n : Nat)
deriving DecidableEq

/-- The numeric value of a term slot: NumberLong carries valueOf, so the
relational operator at line 343 compares it numerically. -/
def termNum : TermVal → Int
  | .numberLong x => x
  | .plainNum n => n

/-- friendlyEqual on term slots: its loose-equality fast path compares a
NumberLong (via valueOf) and a plain number numerically, and two distinct
NumberLong objects fall through to the tojson comparison, equal exactly
when their values are — so the whole test is numeric equality of the
slots. -/
def friendlyEqualTerm : TermVal → TermVal → Bool
  | .numberLong x, .numberLong y => x = y
  | .plainNum n, .plainNum m => n = m
  | .plainNum n, .numberLong x => (n : Int) = x
  | .numberLong x, .plainNum n => x = (n : Int)

/-- Lines 337-338, the wrap ot.t with question mark. A document keeps its
NumberLong term (a NumberLong object is truthy, including NumberLong 0
and NumberLong -1). A bare Timestamp exposes its seconds as the numeric
property t — this very file reads that property at lines 813 and 1480 —
so a bare Timestamp with nonzero seconds is truthy there and stays
unwrapped: its term slot is the plain seconds number and its ts property
is undefined. Only a bare Timestamp with zero seconds (falsy t) is
wrapped to term NumberLong -1. -/
def wrapOpTime : OpTimeVal → Option Timestamp × TermVal
  | .bare ts =>
    if ts.t ≠ 0 then (none, .plainNum ts.t)
    else (some ts, .numberLong (-1))
  | .withTerm ts term => (some ts, .numberLong term)

/-- The exception the comparison can raise. -/
inductive JsEvalError where
  | typeError
deriving DecidableEq

/-- Lines 328-333 as invoked from line 348: calling getTime on an
undefined ts property throws a TypeError. -/
def isEarlierTimestampJs :
    Option Timestamp → Option Timestamp → Except JsEvalError Bool
  | some ts1, some ts2 => .ok (isEarlierTimestamp ts1 ts2)
  | _, _ => .error .typeError

/-- Source lines 335-349, function isEarlierOpTime underscore-prefixed:
wrap the operands, take the numeric term comparison when both term slots
are not friendlyEqual to NumberLong -1 and not friendlyEqual to each
other, otherwise fall through to the timestamp comparison on the ts
properties — which are undefined for unwrapped bare timestamps, making
line 348 throw. -/
def isEarlierOpTime (ot1 ot2 : OpTimeVal) : Except JsEvalError Bool :=
  let o1 := wrapOpTime ot1
  let o2 := wrapOpTime ot2
  if friendlyEqualTerm o1.2 (.numberLong (-1)) = false ∧
      friendlyEqualTerm o2.2 (.numberLong (-1)) = false then
    if friendlyEqualTerm o1.2 o2.2 = false then
      .ok (decide (termNum o1.2 < termNum o2.2))
    else isEarlierTimestampJs o1.1 o2.1
  else isEarlierTimestampJs o1.1 o2.1

/-- Result of the three-way comparison induced by the earlier-than
predicate. -/
inductive CompareResult where
  | lt
  | eq
  | gt
deriving DecidableEq

/-- The comparison induced by isEarlierOpTime: a is below b when a is
earlier, above when b is earlier, equal when neither is earlier; a thrown
TypeError propagates. -/
def compareOpTime (a b : OpTimeVal) : Except JsEvalError CompareResult :=
  match isEarlierOpTime a b with
  | .error e => .error e
  | .ok true => .ok .lt
  | .ok false =>
    match isEarlierOpTime b a with
    | .error e => .error e
    | .ok true => .ok .gt
    | .ok false => .ok .eq

/-- A bare Timestamp with nonzero seconds — the shape the wrap guard at
line 337 fails to wrap. -/
def bareNonzero : OpTimeVal → Bool
  | .bare ts => ts.t ≠ 0
  | .withTerm _ _ => false

/-- A term slot that friendlyEqual identifies with NumberLong -1. -/
def isUnsetTerm (o : OpTimeVal) : Bool :=
  friendlyEqualTerm (wrapOpTime o).2 (.numberLong (-1))

/-- The timestamp comparison as a proposition: lexicographic on
(seconds, ordinal). -/
theorem isEarlierTimestamp_iff (ts1 ts2 : Timestamp) :
    isEarlierTimestamp ts1 ts2 = true ↔
      (ts1.t < ts2.t ∨ (ts1.t = ts2.t ∧ ts1.i < ts2.i)) := by
  unfold isEarlierTimestamp
  split_ifs with h
  · simp [h]
  · simp [h]

/-- friendlyEqual on term slots is numeric equality of the slots. -/
theorem friendlyEqualTerm_eq (u v : TermVal) :
    friendlyEqualTerm u v = decide (termNum u = termNum v) := by
  cases u <;> cases v <;>
    simp [friendlyEqualTerm, termNum, decide_eq_decide]

/-- Unfolding of isEarlierOpTime into a single conditional on the numeric
term slots and the ts views of the wrapped operands. -/
theorem isEarlierOpTime_char (a b : OpTimeVal) :
    isEarlierOpTime a b =
      (if termNum (wrapOpTime a).2 ≠ -1 ∧ termNum (wrapOpTime b).2 ≠ -1 ∧
          termNum (wrapOpTime a).2 ≠ termNum (wrapOpTime b).2
       then .ok (decide (termNum (wrapOpTime a).2 < termNum (wrapOpTime b).2))
       else isEarlierTimestampJs (wrapOpTime a).1 (wrapOpTime b).1) := by
  simp only [isEarlierOpTime, friendlyEqualTerm_eq]
  have hm : termNum (TermVal.numberLong (-1)) = -1 := rfl
  rw [hm]
  by_cases h1 : termNum (wrapOpTime a).2 = -1
  · simp [h1]
  · by_cases h2 : termNum (wrapOpTime b).2 = -1
    · simp [h1, h2]
    · by_cases h3 : termNum (wrapOpTime a).2 = termNum (wrapOpTime b).2
      · simp [h1, h2, h3]
      · simp [h1, h2, h3]

/-- The comparison evaluates to ok true exactly when the numeric term
path applies and decides lower, or the fallback applies with both ts
views defined and lexicographically lower. -/
theorem isEarlier_ok_true_iff (a b : OpTimeVal) :
    isEarlierOpTime a b = .ok true ↔
      ((termNum (wrapOpTime a).2 ≠ -1 ∧ termNum (wrapOpTime b).2 ≠ -1 ∧
          termNum (wrapOpTime a).2 ≠ termNum (wrapOpTime b).2) ∧
        termNum (wrapOpTime a).2 < termNum (wrapOpTime b).2) ∨
      (¬(termNum (wrapOpTime a).2 ≠ -1 ∧ termNum (wrapOpTime b).2 ≠ -1 ∧
          termNum (wrapOpTime a).2 ≠ termNum (wrapOpTime b).2) ∧
        ∃ t1 t2, (wrapOpTime a).1 = some t1 ∧ (wrapOpTime b).1 = some t2 ∧
          (t1.t < t2.t ∨ (t1.t = t2.t ∧ t1.i < t2.i))) := by
  rw [isEarlierOpTime_char]
  split_ifs with h
  · simp [h]
  · rcases hta : (wrapOpTime a).1 with _ | t1 <;>
      rcases htb : (wrapOpTime b).1 with _ | t2 <;>
        simp [isEarlierTimestampJs, isEarlierTimestamp_iff, hta, htb, h]

/-- Self-comparison: ok false when the ts view is defined, a TypeError
for an unwrapped bare timestamp. -/
theorem isEarlier_self (a : OpTimeVal) :
    isEarlierOpTime a a =
      (if bareNonzero a = true then .error .typeError else .ok false) := by
  rw [isEarlierOpTime_char]
  rw [if_neg (by simp)]
  cases a with
  | bare ts =>
    by_cases h : ts.t = 0
    · simp [wrapOpTime, bareNonzero, h, isEarlierTimestampJs,
        isEarlierTimestamp]
    · simp [wrapOpTime, bareNonzero, h, isEarlierTimestampJs]
  | withTerm ts t =>
    simp [wrapOpTime, bareNonzero, isEarlierTimestampJs, isEarlierTimestamp]

/-- The induced comparison is ok lt exactly when the earlier-than
predicate evaluates to ok true. -/
theorem compareOpTime_lt_iff (a b : OpTimeVal) :
    compareOpTime a b = .ok .lt ↔ isEarlierOpTime a b = .ok true := by
  rcases h1 : isEarlierOpTime a b with e | b1
  · simp [compareOpTime, h1]
  · cases b1
    · rcases h2 : isEarlierOpTime b a with e2 | b2
      · simp [compareOpTime, h1, h2]
      · cases b2 <;> simp [compareOpTime, h1, h2]
    · simp [compareOpTime, h1]

/-- An unset term slot is exactly a numeric term of -1. -/
theorem isUnsetTerm_true_iff (o : OpTimeVal) :
    isUnsetTerm o = true ↔ termNum (wrapOpTime o).2 = -1 := by
  rw [isUnsetTerm, friendlyEqualTerm_eq]
  simp [termNum]

/-- A set term slot is exactly a numeric term other than -1. -/
theorem isUnsetTerm_false_iff (o : OpTimeVal) :
    isUnsetTerm o = false ↔ ¬ termNum (wrapOpTime o).2 = -1 := by
  rw [isUnsetTerm, friendlyEqualTerm_eq]
  simp [termNum]

/-- Claim C1, evaluated at the failing inputs (code bug): the claim (and
the comment at line 336, which says both optimes are made to have a
timestamp and a term) requires a value with no term field to fall back to
lexicographic timestamp comparison, but the wrap guard ot.t at line 337
sees the numeric seconds of a bare Timestamp, truthy when nonzero, and
leaves it unwrapped. First two conjuncts: against a document at term
NumberLong 1, the bare Timestamp (7,0) compares by its seconds 7 as a set
term — not earlier, and the document compares earlier — where the claimed
timestamp fallback would give exactly the opposite. Third conjunct: two
unwrapped bare timestamps with equal seconds reach line 348 with
undefined ts properties and throw a TypeError instead of comparing
ordinals. Last two conjuncts: a bare timestamp with zero seconds is
wrapped as intended and falls back to the timestamp comparison, and
documents with set differing terms compare by term. -/
theorem c1_termless_comparison_eval :
    isEarlierOpTime (.bare ⟨7, 0⟩) (.withTerm ⟨9, 0⟩ 1) = .ok false
    ∧ isEarlierOpTime (.withTerm ⟨9, 0⟩ 1) (.bare ⟨7, 0⟩) = .ok true
    ∧ isEarlierOpTime (.bare ⟨7, 2⟩) (.bare ⟨7, 5⟩) = .error .typeError
    ∧ isEarlierOpTime (.bare ⟨0, 1⟩) (.withTerm ⟨0, 2⟩ 5) = .ok true
    ∧ isEarlierOpTime (.withTerm ⟨5, 7⟩ 1) (.withTerm ⟨9, 0⟩ 2) = .ok true :=
  ⟨rfl, rfl, rfl, rfl, rfl⟩

/-- Claim C9 counterexample: the induced comparison is not a total
preorder. Reflexivity fails on a bare timestamp with nonzero seconds —
its self-comparison throws a TypeError instead of returning equal — and
transitivity fails once a -1-term operand is mixed with set-term ones:
with a at term 1 timestamp (5,0), b at term 2 timestamp (0,1) and c a
bare zero-seconds timestamp (0,9) (wrapped to term -1), a is below b by
term and b below c by timestamp, yet a is above c by timestamp. -/
theorem c9_compare_not_preorder :
    compareOpTime (.bare ⟨7, 0⟩) (.bare ⟨7, 0⟩) = .error .typeError
    ∧ compareOpTime (.withTerm ⟨5, 0⟩ 1) (.withTerm ⟨0, 1⟩ 2) = .ok .lt
    ∧ compareOpTime (.withTerm ⟨0, 1⟩ 2) (.bare ⟨0, 9⟩) = .ok .lt
    ∧ compareOpTime (.withTerm ⟨5, 0⟩ 1) (.bare ⟨0, 9⟩) = .ok .gt :=
  ⟨rfl, rfl, rfl, rfl⟩

/-- Claim C9 (amended): the induced comparison is antisymmetric for all
operation times; self-comparison returns equal for every operand except
an unwrapped bare timestamp with nonzero seconds, whose self-comparison
throws; and the comparison is transitive on every triple whose term slots
are uniform — all set (not friendlyEqual to -1) or all -1 (explicit -1
terms and bare zero-seconds timestamps). Transitivity can fail on mixed
triples. -/
theorem c9_compare_preorder (a b c : OpTimeVal) :
    compareOpTime a a =
      (if bareNonzero a = true then .error .typeError else .ok .eq)
    ∧ ¬(isEarlierOpTime a b = .ok true ∧ isEarlierOpTime b a = .ok true)
    ∧ ((isUnsetTerm a = false ∧ isUnsetTerm b = false ∧ isUnsetTerm c = false)
        ∨ (isUnsetTerm a = true ∧ isUnsetTerm b = true ∧ isUnsetTerm c = true) →
      compareOpTime a b = .ok .lt → compareOpTime b c = .ok .lt →
        compareOpTime a c = .ok .lt) := by
  refine ⟨?_, ?_, ?_⟩
  · have hs := isEarlier_self a
    by_cases hb : bareNonzero a = true
    · simp [compareOpTime, hs, hb]
    · have hb2 : bareNonzero a = false := by
        revert hb
        cases bareNonzero a <;> simp
      simp [compareOpTime, hs, hb2]
  · rintro ⟨h1, h2⟩
    rw [isEarlier_ok_true_iff] at h1 h2
    rcases h1 with ⟨hc1, hlt1⟩ | ⟨hc1, t1, t2, ha1, hb1, hx1⟩ <;>
      rcases h2 with ⟨hc2, hlt2⟩ | ⟨hc2, t3, t4, hb2, ha2, hx2⟩
    · omega
    · exact hc2 ⟨hc1.2.1, hc1.1, fun he => hc1.2.2 he.symm⟩
    · exact hc1 ⟨hc2.2.1, hc2.1, fun he => hc2.2.2 he.symm⟩
    · rw [ha1] at ha2
      rw [hb1] at hb2
      have e1 := Option.some.inj ha2
      have e2 := Option.some.inj hb2
      subst e1
      subst e2
      omega
  · intro huni hab hbc
    rw [compareOpTime_lt_iff] at hab hbc ⊢
    rw [isEarlier_ok_true_iff] at hab hbc ⊢
    have huni2 : (termNum (wrapOpTime a).2 ≠ -1 ∧
          termNum (wrapOpTime b).2 ≠ -1 ∧ termNum (wrapOpTime c).2 ≠ -1) ∨
        (termNum (wrapOpTime a).2 = -1 ∧ termNum (wrapOpTime b).2 = -1 ∧
          termNum (wrapOpTime c).2 = -1) := by
      rcases huni with ⟨h1, h2, h3⟩ | ⟨h1, h2, h3⟩
      · exact Or.inl ⟨(isUnsetTerm_false_iff a).mp h1,
          (isUnsetTerm_false_iff b).mp h2, (isUnsetTerm_false_iff c).mp h3⟩
      · exact Or.inr ⟨(isUnsetTerm_true_iff a).mp h1,
          (isUnsetTerm_true_iff b).mp h2, (isUnsetTerm_true_iff c).mp h3⟩
    rcases hab with ⟨hc1, hlt1⟩ | ⟨hc1, t1, t2, ha1, hb1, hx1⟩ <;>
      rcases hbc with ⟨hc2, hlt2⟩ | ⟨hc2, t3, t4, hb2, hc4, hx2⟩
    · left
      refine ⟨⟨hc1.1, hc2.2.1, by omega⟩, by omega⟩
    · rcases huni2 with ⟨hu1, hu2, hu3⟩ | ⟨hu1, hu2, hu3⟩
      · have he : termNum (wrapOpTime b).2 = termNum (wrapOpTime c).2 := by
          by_contra hne
          exact hc2 ⟨hu2, hu3, hne⟩
        left
        refine ⟨⟨hc1.1, hu3, by omega⟩, by omega⟩
      · exact absurd hu1 hc1.1
    · rcases huni2 with ⟨hu1, hu2, hu3⟩ | ⟨hu1, hu2, hu3⟩
      · have he : termNum (wrapOpTime a).2 = termNum (wrapOpTime b).2 := by
          by_contra hne
          exact hc1 ⟨hu1, hu2, hne⟩
        left
        refine ⟨⟨hu1, hc2.2.1, by omega⟩, by omega⟩
      · exact absurd hu2 hc2.1
    · right
      rw [hb1] at hb2
      have e2 := Option.some.inj hb2
      subst e2
      constructor
      · rcases huni2 with ⟨hu1, hu2, hu3⟩ | ⟨hu1, hu2, hu3⟩
        · have he1 : termNum (wrapOpTime a).2 = termNum (wrapOpTime b).2 := by
            by_contra hne
            exact hc1 ⟨hu1, hu2, hne⟩
          have he2 : termNum (wrapOpTime b).2 = termNum (wrapOpTime c).2 := by
            by_contra hne
            exact hc2 ⟨hu2, hu3, hne⟩
          intro hC
          exact hC.2.2 (by omega)
        · intro hC
          exact hC.1 hu1
      · exact ⟨t1, t4, ha1, hc4, by omega⟩

/-- Witness for claim C9: the amended theorem applied to a concrete
uniformly set-term triple. -/
theorem c9_compare_preorder_witness :
    compareOpTime (.withTerm ⟨1, 1⟩ 1) (.withTerm ⟨1, 1⟩ 1) = .ok .eq
    ∧ compareOpTime (.withTerm ⟨1, 1⟩ 1) (.withTerm ⟨3, 3⟩ 3) = .ok .lt :=
  ⟨(c9_compare_preorder (.withTerm ⟨1, 1⟩ 1) (.withTerm ⟨2, 2⟩ 2)
      (.withTerm ⟨3, 3⟩ 3)).1,
   (c9_compare_preorder (.withTerm ⟨1, 1⟩ 1) (.withTerm ⟨2, 2⟩ 2)
      (.withTerm ⟨3, 3⟩ 3)).2.2 (Or.inl (by decide)) (by rfl) (by rfl)⟩

/-! ## awaitReplication (source lines 716-849)

One iteration of the assert.soonNoExcept callback at lines 763-848 is
embedded as a pure pass over the observed secondaries. The mutable
variables it updates (masterLatestOpTime from line 728, configVersion
from line 749) form the pass state; the values that a re-read of the
primary would produce during the pass form the pass environment.

Semantics note for the configuration-version branch (lines 780-790): the
statement master = this.getPrimary() at line 781 runs inside a
strict-mode callback invoked without a receiver, so this is undefined and
the property access throws a TypeError before any of the re-resolving
assignments take effect. The exception is caught by the catch at lines
837-846, which re-runs awaitLastOpTimeWrittenFn (refreshing only
masterLatestOpTime from the current primary) and returns false; the
configVersion variable keeps its stale value. -/

/-- Source lines 1628-1631: the secondary optime kind requested by the
caller. -/
inductive OpTimeType where
  | lastApplied
  | lastDurable
deriving DecidableEq

/-- What one polling pass observes about one entry of liveNodes.slaves:
its local system.replset config version (line 772), whether
replSetGetStatus reports it as an arbiter (lines 796-799), and its last
applied and last durable optime timestamps (lines 807-812). -/
structure SlaveObs where
  configVersion : Int
  isArbiter : Bool
  lastApplied : Timestamp
  lastDurable : Timestamp
deriving DecidableEq

/-- Values produced by re-reading the primary during a pass: masterLatest
is what getLastOpTimeTimestamp returns on the master connection captured
before the loop (used by the newer-secondary branch, line 815), and
primaryLatest is what awaitLastOpTimeWrittenFn stores after looking the
primary up afresh (used by the catch handler, line 841). -/
structure PassEnv where
  masterLatest : Timestamp
  primaryLatest : Timestamp
deriving DecidableEq

/-- The mutable state threaded between passes: the target timestamp
masterLatestOpTime and the expected configuration version. -/
structure PassState where
  masterLatestOpTime : Timestamp
  configVersion : Int
deriving DecidableEq

/-- Lines 807-810: the timestamp of the requested kind for a secondary. -/
def secondaryTs (k : OpTimeType) (s : SlaveObs) : Timestamp :=
  match k with
  | .lastApplied => s.lastApplied
  | .lastDurable => s.lastDurable

/-- One polling pass over the observed secondaries (the body of the
callback at lines 763-836). Returns the updated state and whether the
pass declared all secondaries synced. -/
def awaitReplicationPass (k : OpTimeType) (env : PassEnv) (st : PassState) :
    List SlaveObs → PassState × Bool
  | [] => (st, true)
  | s :: rest =>
    if s.configVersion ≠ st.configVersion then
      if s.configVersion > st.configVersion then
        -- line 781 throws (strict-mode this is undefined); the catch at
        -- lines 837-846 refreshes only masterLatestOpTime and returns false
        ({ st with masterLatestOpTime := env.primaryLatest }, false)
      else (st, false)
    else if s.isArbiter then
      awaitReplicationPass k env st rest
    else
      let ts := secondaryTs k s
      if st.masterLatestOpTime.t < ts.t ∨
          (st.masterLatestOpTime.t = ts.t ∧ st.masterLatestOpTime.i < ts.i) then
        ({ st with masterLatestOpTime := env.masterLatest }, false)
      else if st.masterLatestOpTime ≠ ts then (st, false)
      else awaitReplicationPass k env st rest

/-- The assert.soonNoExcept retry loop around the pass: each element of
the list is the environment and slave observations of one polling round;
the loop stops at the first successful pass (returning the state it saw)
and times out (none) when the rounds are exhausted. -/
def awaitReplicationRun (k : OpTimeType) :
    List (PassEnv × List SlaveObs) → PassState → Option PassState
  | [], _ => none
  | (env, slaves) :: rest, st =>
    match awaitReplicationPass k env st slaves with
    | (st2, true) => some st2
    | (st2, false) => awaitReplicationRun k rest st2

/-- Step lemma: a secondary with a config version greater than the target
makes the pass fail, refreshing only the target timestamp (the stale
configVersion is kept because the re-resolving line throws). -/
theorem pass_cons_cvGreater (k : OpTimeType) (env : PassEnv) (st : PassState)
    (s : SlaveObs) (rest : List SlaveObs)
    (h1 : s.configVersion ≠ st.configVersion)
    (h2 : s.configVersion > st.configVersion) :
    awaitReplicationPass k env st (s :: rest) =
      ({ st with masterLatestOpTime := env.primaryLatest }, false) := by
  simp [awaitReplicationPass, h1, h2]

/-- Step lemma: a secondary with a config version lower than the target
makes the pass fail with no state change. -/
theorem pass_cons_cvLower (k : OpTimeType) (env : PassEnv) (st : PassState)
    (s : SlaveObs) (rest : List SlaveObs)
    (h1 : s.configVersion ≠ st.configVersion)
    (h2 : ¬ s.configVersion > st.configVersion) :
    awaitReplicationPass k env st (s :: rest) = (st, false) := by
  simp [awaitReplicationPass, h1, h2]

/-- Step lemma: an arbiter with the expected config version is skipped. -/
theorem pass_cons_arbiter (k : OpTimeType) (env : PassEnv) (st : PassState)
    (s : SlaveObs) (rest : List SlaveObs)
    (h1 : s.configVersion = st.configVersion) (h2 : s.isArbiter = true) :
    awaitReplicationPass k env st (s :: rest) =
      awaitReplicationPass k env st rest := by
  simp [awaitReplicationPass, h1, h2]

/-- Step lemma: a non-arbiter secondary strictly ahead of the target makes
the pass fail, resetting the target from the master connection. -/
theorem pass_cons_newer (k : OpTimeType) (env : PassEnv) (st : PassState)
    (s : SlaveObs) (rest : List SlaveObs)
    (h1 : s.configVersion = st.configVersion) (h2 : s.isArbiter = false)
    (h3 : st.masterLatestOpTime.t < (secondaryTs k s).t ∨
      (st.masterLatestOpTime.t = (secondaryTs k s).t ∧
        st.masterLatestOpTime.i < (secondaryTs k s).i)) :
    awaitReplicationPass k env st (s :: rest) =
      ({ st with masterLatestOpTime := env.masterLatest }, false) := by
  simp [awaitReplicationPass, h1, h2, h3]

/-- Step lemma: a non-arbiter secondary that is neither ahead of nor equal
to the target makes the pass fail with no state change. -/
theorem pass_cons_notSynced (k : OpTimeType) (env : PassEnv) (st : PassState)
    (s : SlaveObs) (rest : List SlaveObs)
    (h1 : s.configVersion = st.configVersion) (h2 : s.isArbiter = false)
    (h3 : ¬(st.masterLatestOpTime.t < (secondaryTs k s).t ∨
      (st.masterLatestOpTime.t = (secondaryTs k s).t ∧
        st.masterLatestOpTime.i < (secondaryTs k s).i)))
    (h4 : st.masterLatestOpTime ≠ secondaryTs k s) :
    awaitReplicationPass k env st (s :: rest) = (st, false) := by
  simp [awaitReplicationPass, h1, h2, h3, h4]

/-- Step lemma: a non-arbiter secondary whose timestamp equals the target
is synced and the pass moves on. -/
theorem pass_cons_synced (k : OpTimeType) (env : PassEnv) (st : PassState)
    (s : SlaveObs) (rest : List SlaveObs)
    (h1 : s.configVersion = st.configVersion) (h2 : s.isArbiter = false)
    (h4 : st.masterLatestOpTime = secondaryTs k s) :
    awaitReplicationPass k env st (s :: rest) =
      awaitReplicationPass k env st rest := by
  have h3 : ¬(st.masterLatestOpTime.t < (secondaryTs k s).t ∨
      (st.masterLatestOpTime.t = (secondaryTs k s).t ∧
        st.masterLatestOpTime.i < (secondaryTs k s).i)) := by
    rw [← h4]
    omega
  simp [awaitReplicationPass, h1, h2, h3, h4]

/-- A pass succeeds exactly when every observed secondary carries the
expected config version and every non-arbiter one has the timestamp of
the requested kind exactly equal to the target. -/
theorem awaitReplicationPass_true_iff (k : OpTimeType) (env : PassEnv)
    (st : PassState) (slaves : List SlaveObs) :
    (awaitReplicationPass k env st slaves).2 = true ↔
      ∀ s ∈ slaves, s.configVersion = st.configVersion ∧
        (s.isArbiter = false → secondaryTs k s = st.masterLatestOpTime) := by
  induction slaves with
  | nil => simp [awaitReplicationPass]
  | cons s rest ih =>
    rw [List.forall_mem_cons]
    by_cases h1 : s.configVersion = st.configVersion
    · by_cases h2 : s.isArbiter = true
      · rw [pass_cons_arbiter k env st s rest h1 h2, ih]
        simp [h1, h2]
      · have h2f : s.isArbiter = false := by
          revert h2
          cases s.isArbiter <;> simp
        by_cases h4 : st.masterLatestOpTime = secondaryTs k s
        · rw [pass_cons_synced k env st s rest h1 h2f h4, ih]
          simp [h1, h2f, h4.symm]
        · by_cases h3 : st.masterLatestOpTime.t < (secondaryTs k s).t ∨
              (st.masterLatestOpTime.t = (secondaryTs k s).t ∧
                st.masterLatestOpTime.i < (secondaryTs k s).i)
          · rw [pass_cons_newer k env st s rest h1 h2f h3]
            constructor
            · intro h
              exact absurd h (by simp)
            · intro h
              have hts := (h.1).2 h2f
              rw [hts] at h3
              omega
          · rw [pass_cons_notSynced k env st s rest h1 h2f h3 h4]
            constructor
            · intro h
              exact absurd h (by simp)
            · intro h
              exact absurd ((h.1).2 h2f).symm h4
    · by_cases h2 : s.configVersion > st.configVersion
      · rw [pass_cons_cvGreater k env st s rest h1 h2]
        constructor
        · intro h
          exact absurd h (by simp)
        · intro h
          exact absurd h.1.1 h1
      · rw [pass_cons_cvLower k env st s rest h1 h2]
        constructor
        · intro h
          exact absurd h (by simp)
        · intro h
          exact absurd h.1.1 h1

/-- A successful pass leaves the state unchanged. -/
theorem awaitReplicationPass_true_state (k : OpTimeType) (env : PassEnv)
    (st : PassState) (slaves : List SlaveObs)
    (h : (awaitReplicationPass k env st slaves).2 = true) :
    (awaitReplicationPass k env st slaves).1 = st := by
  induction slaves with
  | nil => simp [awaitReplicationPass]
  | cons s rest ih =>
    by_cases h1 : s.configVersion = st.configVersion
    · by_cases h2 : s.isArbiter = true
      · rw [pass_cons_arbiter k env st s rest h1 h2] at h ⊢
        exact ih h
      · have h2f : s.isArbiter = false := by
          revert h2
          cases s.isArbiter <;> simp
        by_cases h4 : st.masterLatestOpTime = secondaryTs k s
        · rw [pass_cons_synced k env st s rest h1 h2f h4] at h ⊢
          exact ih h
        · by_cases h3 : st.masterLatestOpTime.t < (secondaryTs k s).t ∨
              (st.masterLatestOpTime.t = (secondaryTs k s).t ∧
                st.masterLatestOpTime.i < (secondaryTs k s).i)
          · rw [pass_cons_newer k env st s rest h1 h2f h3] at h
            exact absurd h (by simp)
          · rw [pass_cons_notSynced k env st s rest h1 h2f h3 h4] at h
            exact absurd h (by simp)
    · by_cases h2 : s.configVersion > st.configVersion
      · rw [pass_cons_cvGreater k env st s rest h1 h2] at h
        exact absurd h (by simp)
      · rw [pass_cons_cvLower k env st s rest h1 h2] at h
        exact absurd h (by simp)

/-- An arbiter is skipped before its optime is read: replacing an arbiter
entry by one with the same config version but arbitrary optimes never
changes the outcome of a pass. -/
theorem awaitReplicationPass_arbiter_skipped (k : OpTimeType) (env : PassEnv)
    (st : PassState) (pre post : List SlaveObs) (cv : Int)
    (la1 ld1 la2 ld2 : Timestamp) :
    awaitReplicationPass k env st (pre ++ ⟨cv, true, la1, ld1⟩ :: post) =
      awaitReplicationPass k env st (pre ++ ⟨cv, true, la2, ld2⟩ :: post) := by
  induction pre generalizing st with
  | nil =>
    rw [List.nil_append, List.nil_append]
    by_cases h1 : (⟨cv, true, la1, ld1⟩ : SlaveObs).configVersion =
        st.configVersion
    · rw [pass_cons_arbiter k env st ⟨cv, true, la1, ld1⟩ post h1 rfl,
        pass_cons_arbiter k env st ⟨cv, true, la2, ld2⟩ post h1 rfl]
    · by_cases h2 : (⟨cv, true, la1, ld1⟩ : SlaveObs).configVersion >
          st.configVersion
      · rw [pass_cons_cvGreater k env st ⟨cv, true, la1, ld1⟩ post h1 h2,
          pass_cons_cvGreater k env st ⟨cv, true, la2, ld2⟩ post h1 h2]
      · rw [pass_cons_cvLower k env st ⟨cv, true, la1, ld1⟩ post h1 h2,
          pass_cons_cvLower k env st ⟨cv, true, la2, ld2⟩ post h1 h2]
  | cons p pre ih =>
    rw [List.cons_append, List.cons_append]
    by_cases h1 : p.configVersion = st.configVersion
    · by_cases h2 : p.isArbiter = true
      · rw [pass_cons_arbiter k env st p _ h1 h2,
          pass_cons_arbiter k env st p _ h1 h2, ih]
      · have h2f : p.isArbiter = false := by
          revert h2
          cases p.isArbiter <;> simp
        by_cases h4 : st.masterLatestOpTime = secondaryTs k p
        · rw [pass_cons_synced k env st p _ h1 h2f h4,
            pass_cons_synced k env st p _ h1 h2f h4, ih]
        · by_cases h3 : st.masterLatestOpTime.t < (secondaryTs k p).t ∨
              (st.masterLatestOpTime.t = (secondaryTs k p).t ∧
                st.masterLatestOpTime.i < (secondaryTs k p).i)
          · rw [pass_cons_newer k env st p _ h1 h2f h3,
              pass_cons_newer k env st p _ h1 h2f h3]
          · rw [pass_cons_notSynced k env st p _ h1 h2f h3 h4,
              pass_cons_notSynced k env st p _ h1 h2f h3 h4]
    · by_cases h2 : p.configVersion > st.configVersion
      · rw [pass_cons_cvGreater k env st p _ h1 h2,
          pass_cons_cvGreater k env st p _ h1 h2]
      · rw [pass_cons_cvLower k env st p _ h1 h2,
          pass_cons_cvLower k env st p _ h1 h2]

/-- A successful wait comes from one single polling pass in which every
observed secondary satisfied the sync conditions with respect to the
returned state. -/
theorem awaitReplicationRun_success (k : OpTimeType)
    (passes : List (PassEnv × List SlaveObs)) (st stf : PassState)
    (h : awaitReplicationRun k passes st = some stf) :
    ∃ p ∈ passes, ∀ s ∈ p.2, s.configVersion = stf.configVersion ∧
      (s.isArbiter = false → secondaryTs k s = stf.masterLatestOpTime) := by
  induction passes generalizing st with
  | nil => simp [awaitReplicationRun] at h
  | cons p rest ih =>
    obtain ⟨env, slaves⟩ := p
    rcases hpass : awaitReplicationPass k env st slaves with ⟨st2, b⟩
    cases b with
    | true =>
      have hb : (awaitReplicationPass k env st slaves).2 = true := by
        rw [hpass]
      have hst : st2 = st := by
        have hs := awaitReplicationPass_true_state k env st slaves hb
        rw [hpass] at hs
        exact hs
      have hstf : stf = st := by
        simp only [awaitReplicationRun, hpass] at h
        have h2 := Option.some.inj h
        rw [← h2]
        exact hst
      refine ⟨(env, slaves), by simp, ?_⟩
      intro s hs
      rw [hstf]
      exact (awaitReplicationPass_true_iff k env st slaves).1 hb s hs
    | false =>
      simp only [awaitReplicationRun, hpass] at h
      obtain ⟨q, hq, hqs⟩ := ih st2 h
      exact ⟨q, by simp [hq], hqs⟩

/-- Claim C2 (amended): awaitReplication declares a secondary synced only
when its timestamp of the requested kind (lastApplied or lastDurable)
exactly equals the current target; an arbiter is skipped in the sync
check — its optimes never influence a pass — although its configuration
version is still checked like any other secondary; the wait succeeds only
through one single polling pass in which every observed non-arbiter
secondary is synced against the returned target and every observed
secondary, arbiters included, carries the expected config version; and in
the concrete scenario with the leader at timestamp (100,2) and one
secondary at (100,1), the wait does not succeed until that secondary
reaches (100,2), after which it succeeds with target (100,2). -/
theorem c2_awaitReplication_sync :
    (∀ k env st slaves, (awaitReplicationPass k env st slaves).2 = true ↔
      ∀ s ∈ slaves, s.configVersion = st.configVersion ∧
        (s.isArbiter = false → secondaryTs k s = st.masterLatestOpTime))
    ∧ (∀ k env st pre post cv la1 ld1 la2 ld2,
      awaitReplicationPass k env st (pre ++ ⟨cv, true, la1, ld1⟩ :: post) =
        awaitReplicationPass k env st (pre ++ ⟨cv, true, la2, ld2⟩ :: post))
    ∧ (∀ k passes st stf, awaitReplicationRun k passes st = some stf →
      ∃ p ∈ passes, ∀ s ∈ p.2, s.configVersion = stf.configVersion ∧
        (s.isArbiter = false → secondaryTs k s = stf.masterLatestOpTime))
    ∧ (awaitReplicationRun .lastApplied
        [(⟨⟨100, 2⟩, ⟨100, 2⟩⟩,
          [⟨1, false, ⟨100, 2⟩, ⟨100, 2⟩⟩, ⟨1, false, ⟨100, 1⟩, ⟨100, 1⟩⟩])]
        ⟨⟨100, 2⟩, 1⟩ = none
      ∧ awaitReplicationRun .lastApplied
        [(⟨⟨100, 2⟩, ⟨100, 2⟩⟩,
          [⟨1, false, ⟨100, 2⟩, ⟨100, 2⟩⟩, ⟨1, false, ⟨100, 1⟩, ⟨100, 1⟩⟩]),
         (⟨⟨100, 2⟩, ⟨100, 2⟩⟩,
          [⟨1, false, ⟨100, 2⟩, ⟨100, 2⟩⟩, ⟨1, false, ⟨100, 2⟩, ⟨100, 2⟩⟩])]
        ⟨⟨100, 2⟩, 1⟩ = some ⟨⟨100, 2⟩, 1⟩) :=
  ⟨awaitReplicationPass_true_iff,
   fun k env st pre post cv la1 ld1 la2 ld2 =>
     awaitReplicationPass_arbiter_skipped k env st pre post cv la1 ld1 la2 ld2,
   awaitReplicationRun_success,
   by decide⟩

/-- Witness for claim C2: the one-pass characterization applied to a
concrete successful run. -/
theorem c2_awaitReplication_sync_witness :
    ∃ p ∈ ([(⟨⟨100, 2⟩, ⟨100, 2⟩⟩, [⟨1, false, ⟨100, 2⟩, ⟨100, 2⟩⟩])] :
        List (PassEnv × List SlaveObs)),
      ∀ s ∈ p.2, s.configVersion = (⟨⟨100, 2⟩, 1⟩ : PassState).configVersion ∧
        (s.isArbiter = false → secondaryTs .lastApplied s =
          (⟨⟨100, 2⟩, 1⟩ : PassState).masterLatestOpTime) :=
  c2_awaitReplication_sync.2.2.1 .lastApplied _ ⟨⟨100, 2⟩, 1⟩ ⟨⟨100, 2⟩, 1⟩
    (by decide)

/-- Claim C2 counterexample: an arbiter member is not skipped entirely —
its local configuration version is checked (lines 772-793) before the
arbiter test at lines 796-799, so an arbiter alone (here reporting config
version 2 against target version 1) fails a polling pass that succeeds
without it, and the failure even refreshes the target through the
config-version branch. -/
theorem c2_arbiter_config_cex :
    awaitReplicationPass .lastApplied ⟨⟨200, 1⟩, ⟨300, 1⟩⟩ ⟨⟨100, 0⟩, 1⟩
        [⟨2, true, ⟨100, 0⟩, ⟨100, 0⟩⟩]
      = (⟨⟨300, 1⟩, 1⟩, false)
    ∧ awaitReplicationPass .lastApplied ⟨⟨200, 1⟩, ⟨300, 1⟩⟩ ⟨⟨100, 0⟩, 1⟩ []
      = (⟨⟨100, 0⟩, 1⟩, true) := by
  decide

/-- Claim C3, evaluated at the failing input (code bug): in a pass whose
target config version is 1, a secondary reporting config version 2 makes
the pass return false with ONLY the target timestamp refreshed (to the
freshly looked-up primary latest, here (300,1)) while configVersion stays
1 — the spec says leader, configuration version and target are all
re-resolved, but the re-resolving statement master = this.getPrimary()
throws in strict mode and the catch handler refreshes only the target.
Second conjunct: the newer-secondary branch does behave as specified —
a secondary at (150,0) ahead of target (100,0) refreshes the target to
the master connection latest (200,1) and the pass continues polling
(returns false, not a failure). -/
theorem c3_awaitReplication_branches_eval :
    awaitReplicationPass .lastApplied ⟨⟨200, 1⟩, ⟨300, 1⟩⟩ ⟨⟨100, 0⟩, 1⟩
        [⟨2, false, ⟨100, 0⟩, ⟨100, 0⟩⟩]
      = (⟨⟨300, 1⟩, 1⟩, false)
    ∧ awaitReplicationPass .lastApplied ⟨⟨200, 1⟩, ⟨300, 1⟩⟩ ⟨⟨100, 0⟩, 1⟩
        [⟨1, false, ⟨150, 0⟩, ⟨150, 0⟩⟩]
      = (⟨⟨200, 1⟩, 1⟩, false) := by
  decide

/-! ## awaitLastOpCommitted (source lines 684-714)

The function reads the primary latest optime once (line 687) before the
assert.soonNoExcept loop and never re-reads it: the loop iterates over
all nodes, skips arbiters, and requires each remaining node to have a
non-zero read-concern-majority optime whose comparison against that
fixed target evaluates to not-earlier. A TypeError thrown by the
comparison is swallowed by assert.soonNoExcept and counts as a failed
pass. On success the function returns the target read at the start. -/

/-- What one polling pass observes about one member: whether its
replSetGetStatus myState is ARBITER, and its read-concern-majority
optime (always a ts/term document; the fallback at lines 307-308 is
ts (0,0) term 0). -/
structure LOCNode where
  isArbiter : Bool
  rcmTs : Timestamp
  rcmTerm : Int
deriving DecidableEq

/-- One iteration of the loop body at lines 693-710; an exception from
the optime comparison propagates out of the pass. -/
def awaitLOCPass (target : OpTimeVal) : List LOCNode → Except JsEvalError Bool
  | [] => .ok true
  | n :: rest =>
    if n.isArbiter then awaitLOCPass target rest
    else if n.rcmTs = ⟨0, 0⟩ ∧ n.rcmTerm = 0 then .ok false
    else
      match isEarlierOpTime (.withTerm n.rcmTs n.rcmTerm) target with
      | .error e => .error e
      | .ok true => .ok false
      | .ok false => awaitLOCPass target rest

/-- One polling round as the environment offers it: the node observations
together with the latest optime of whoever is currently the leader. The
source never consults leaderNow inside the loop; it is recorded here so
that the fixed-target behaviour can be stated and compared with the
claimed re-reading behaviour. -/
structure LOCPassObs where
  leaderNow : OpTimeVal
  nodes : List LOCNode
deriving DecidableEq

/-- Source lines 684-714: the retry loop with the target fixed to the
masterOpTime read before the loop; a pass that returns ok true succeeds
immediately with that target, anything else (not yet converged, or a
thrown exception swallowed by assert.soonNoExcept) retries; none models
the timeout when the rounds are exhausted. -/
def awaitLastOpCommitted (masterOpTime : OpTimeVal) :
    List LOCPassObs → Option OpTimeVal
  | [] => none
  | p :: rest =>
    match awaitLOCPass masterOpTime p.nodes with
    | .ok true => some masterOpTime
    | _ => awaitLastOpCommitted masterOpTime rest

/-- Modelled from the claim and spec sentence for comparison: the variant
in which, as the claim states, the target is re-read on the next leader
lookup — each polling round checks the members against the latest optime
of the leader current at that round and returns that refreshed target on
success. -/
def awaitLastOpCommittedReread : List LOCPassObs → Option OpTimeVal
  | [] => none
  | p :: rest =>
    match awaitLOCPass p.leaderNow p.nodes with
    | .ok true => some p.leaderNow
    | _ => awaitLastOpCommittedReread rest

/-- A pass evaluates to ok true exactly when every non-arbiter member has
a non-zero majority-committed optime whose comparison against the target
evaluates to ok false (not earlier, no exception). -/
theorem awaitLOCPass_true_iff (target : OpTimeVal) (nodes : List LOCNode) :
    awaitLOCPass target nodes = .ok true ↔
      ∀ n ∈ nodes, n.isArbiter = false →
        (¬(n.rcmTs = ⟨0, 0⟩ ∧ n.rcmTerm = 0) ∧
          isEarlierOpTime (.withTerm n.rcmTs n.rcmTerm) target = .ok false) := by
  induction nodes with
  | nil => simp [awaitLOCPass]
  | cons n rest ih =>
    rw [List.forall_mem_cons]
    by_cases h1 : n.isArbiter = true
    · rw [show awaitLOCPass target (n :: rest) = awaitLOCPass target rest from
        by simp [awaitLOCPass, h1]]
      rw [ih]
      simp [h1]
    · have h1f : n.isArbiter = false := by
        revert h1
        cases n.isArbiter <;> simp
      by_cases h2 : n.rcmTs = (⟨0, 0⟩ : Timestamp) ∧ n.rcmTerm = 0
      · rw [show awaitLOCPass target (n :: rest) = .ok false from
          by simp [awaitLOCPass, h1f, h2]]
        simp [h1f, h2]
      · rcases h3 : isEarlierOpTime (.withTerm n.rcmTs n.rcmTerm) target
          with e | b
        · rw [show awaitLOCPass target (n :: rest) = .error e from
            by simp [awaitLOCPass, h1f, h2, h3]]
          constructor
          · intro h
            exact absurd h (by simp)
          · intro h
            exact absurd (h.1 h1f).2 (by simp)
        · cases b
          · rw [show awaitLOCPass target (n :: rest) = awaitLOCPass target rest
              from by simp [awaitLOCPass, h1f, h2, h3]]
            rw [ih]
            simp [h1f, h2, h3]
          · rw [show awaitLOCPass target (n :: rest) = .ok false from
              by simp [awaitLOCPass, h1f, h2, h3]]
            constructor
            · intro h
              exact absurd h (by simp)
            · intro h
              exact absurd (h.1 h1f).2 (by simp)

/-- Claim C4 counterexample: with the target read as term 1 ts (5,0) and
a later polling round in which the leader has changed and advanced to
term 2 ts (9,0) while the sole data member still has majority-committed
optime term 1 ts (5,0), the code (fixed target) succeeds immediately and
returns the original target, whereas the claimed re-read-target behaviour
would keep waiting; the two disagree, refuting the claim that the target
is re-read on the next leader lookup. -/
theorem c4_awaitLastOpCommitted_cex :
    awaitLastOpCommitted (.withTerm ⟨5, 0⟩ 1)
        [⟨.withTerm ⟨9, 0⟩ 2, [⟨false, ⟨5, 0⟩, 1⟩]⟩]
      = some (.withTerm ⟨5, 0⟩ 1)
    ∧ awaitLastOpCommittedReread
        [⟨.withTerm ⟨9, 0⟩ 2, [⟨false, ⟨5, 0⟩, 1⟩]⟩]
      = none
    ∧ awaitLastOpCommitted (.withTerm ⟨5, 0⟩ 1)
          [⟨.withTerm ⟨9, 0⟩ 2, [⟨false, ⟨5, 0⟩, 1⟩]⟩]
        ≠ awaitLastOpCommittedReread
          [⟨.withTerm ⟨9, 0⟩ 2, [⟨false, ⟨5, 0⟩, 1⟩]⟩] :=
  ⟨rfl, rfl, by decide⟩

/-- Claim C4 (amended): awaitLastOpCommitted reads the leader latest
optime once as the target before polling and returns exactly that value
on success; it succeeds only once a single pass sees every non-arbiter
member with a non-zero majority-committed optime whose comparison
against that fixed target evaluates to not-earlier; and a leader change
during the wait neither fails the wait nor refreshes the target — the
outcome is entirely independent of the per-round leader optimes. -/
theorem c4_awaitLastOpCommitted_amended :
    (∀ t passes r, awaitLastOpCommitted t passes = some r → r = t)
    ∧ (∀ t (ps1 ps2 : List LOCPassObs),
        ps1.map LOCPassObs.nodes = ps2.map LOCPassObs.nodes →
        awaitLastOpCommitted t ps1 = awaitLastOpCommitted t ps2)
    ∧ (∀ t passes r, awaitLastOpCommitted t passes = some r →
        ∃ p ∈ passes, ∀ n ∈ LOCPassObs.nodes p, n.isArbiter = false →
          (¬(n.rcmTs = ⟨0, 0⟩ ∧ n.rcmTerm = 0) ∧
            isEarlierOpTime (.withTerm n.rcmTs n.rcmTerm) t = .ok false)) := by
  refine ⟨?_, ?_, ?_⟩
  · intro t passes r h
    induction passes with
    | nil => simp [awaitLastOpCommitted] at h
    | cons p rest ih =>
      rw [awaitLastOpCommitted] at h
      rcases hp : awaitLOCPass t p.nodes with e | b
      · rw [hp] at h
        exact ih h
      · cases b
        · rw [hp] at h
          exact ih h
        · rw [hp] at h
          exact (Option.some.inj h).symm
  · intro t ps1 ps2 hmap
    induction ps1 generalizing ps2 with
    | nil =>
      have h2 : ps2 = [] := by
        cases ps2 with
        | nil => rfl
        | cons q qs => simp at hmap
      rw [h2]
    | cons p rest ih =>
      cases ps2 with
      | nil => simp at hmap
      | cons q qs =>
        simp only [List.map_cons, List.cons.injEq] at hmap
        rw [awaitLastOpCommitted, awaitLastOpCommitted, hmap.1,
          ih qs hmap.2]
  · intro t passes r h
    induction passes with
    | nil => simp [awaitLastOpCommitted] at h
    | cons p rest ih =>
      rw [awaitLastOpCommitted] at h
      rcases hp : awaitLOCPass t p.nodes with e | b
      · rw [hp] at h
        obtain ⟨q, hq, hqs⟩ := ih h
        exact ⟨q, by simp [hq], hqs⟩
      · cases b
        · rw [hp] at h
          obtain ⟨q, hq, hqs⟩ := ih h
          exact ⟨q, by simp [hq], hqs⟩
        · exact ⟨p, by simp, (awaitLOCPass_true_iff t p.nodes).1 hp⟩

/-- Witness for claim C4: the amended theorem applied to a concrete
successful wait. -/
theorem c4_awaitLastOpCommitted_amended_witness :
    ∃ p ∈ ([⟨.withTerm ⟨9, 0⟩ 2, [⟨false, ⟨5, 0⟩, 1⟩]⟩] : List LOCPassObs),
      ∀ n ∈ LOCPassObs.nodes p, n.isArbiter = false →
        (¬(n.rcmTs = ⟨0, 0⟩ ∧ n.rcmTerm = 0) ∧
          isEarlierOpTime (.withTerm n.rcmTs n.rcmTerm)
            (.withTerm ⟨5, 0⟩ 1) = .ok false) :=
  c4_awaitLastOpCommitted_amended.2.2 (.withTerm ⟨5, 0⟩ 1)
    [⟨.withTerm ⟨9, 0⟩ 2, [⟨false, ⟨5, 0⟩, 1⟩]⟩] (.withTerm ⟨5, 0⟩ 1) rfl

/-! ## ensureOplogsMatch (source lines 1428-1505)

Each member oplog is modelled as the list of its entry timestamps in
natural (insertion) order; only the ts field of an entry is ever read.
The shell exceptions the walk can raise are made explicit. -/

/-- The exceptions ensureOplogsMatch can raise: the TypeError from
reading property t of null (line 1480, largestTS is initialized to null
at line 1474 and compared before ever being assigned), the cursor error
from calling next with no further document, and the two assert.eq
failures of the lockstep walk (a non-matching ts, or leftover oplog on a
node), each naming the offending reader index. -/
inductive OplogCheckError where
  | nullRead
  | emptyCursor
  | tsMismatch (node : Nat)
  | extraEntries (node : Nat)
deriving DecidableEq

/-- The first loop at lines 1477-1483: for each reader take the first
document (lines 1459-1461; next on an empty cursor throws) and compare
its ts against largestTS, which starts as null — so the comparison at
line 1480 dereferences null on the very first iteration. -/
def findLargestTS : Option Timestamp → List (List Timestamp) →
    Except OplogCheckError (Option Timestamp)
  | acc, [] => .ok acc
  | acc, log :: rest =>
    match log.head? with
    | none => .error .emptyCursor
    | some first =>
      match acc with
      | none => .error .nullRead
      | some l =>
        findLargestTS
          (some (if first.t > l.t ∨ (first.t = l.t ∧ first.i > l.i)
            then first else l)) rest

/-- The query at lines 1452-1457: all entries with ts at least the given
start (gte under the lexicographic timestamp order), in natural order. -/
def oplogFrom (start : Timestamp) (log : List Timestamp) : List Timestamp :=
  log.filter (fun d => ¬ isEarlierTimestamp d start)

/-- One lockstep step over the readers other than the first (lines
1493-1496): each must produce a next document with exactly the given ts;
a missing document raises the cursor error, a different ts fails the
assert naming the reader. -/
def stepOthers (ts : Timestamp) (idx : Nat) :
    List (List Timestamp) → Except OplogCheckError (List (List Timestamp))
  | [] => .ok []
  | q :: qs =>
    match q with
    | [] => .error .emptyCursor
    | d :: rest =>
      if d = ts then (stepOthers ts (idx + 1) qs).map (rest :: ·)
      else .error (.tsMismatch idx)

/-- Lines 1499-1503: after the first reader is exhausted, every other
reader must be exhausted too. -/
def checkNoMore (idx : Nat) : List (List Timestamp) →
    Except OplogCheckError Unit
  | [] => .ok ()
  | q :: qs =>
    if q.isEmpty then checkNoMore (idx + 1) qs
    else .error (.extraEntries idx)

/-- The while loop at lines 1491-1497 followed by the leftover check:
walk the first reader and advance all others in lockstep. -/
def lockstepWalk : List Timestamp → List (List Timestamp) →
    Except OplogCheckError Unit
  | [], others => checkNoMore 1 others
  | d :: rest, others => do
    let others2 ← stepOthers d 1 others
    lockstepWalk rest others2

/-- Source lines 1472-1504: with one member or none the function does
nothing; with two or more it runs the first-document loop (which always
raises: null dereference, or cursor error when the first oplog is empty)
and would then re-query every member from the computed start (null
coalescing to Timestamp (0,0) per line 1454) and walk them in lockstep. -/
def ensureOplogsMatch (logs : List (List Timestamp)) :
    Except OplogCheckError Unit :=
  if logs.length > 1 then do
    let largest ← findLargestTS none logs
    let start := largest.getD ⟨0, 0⟩
    match logs.map (oplogFrom start) with
    | [] => .ok ()
    | q0 :: qrest => lockstepWalk q0 qrest
  else .ok ()

/-- Claim C5, evaluated at the failing input (code bug): on two members
with identical two-entry oplogs the function raises the null-dereference
TypeError instead of succeeding, because largestTS is null when line 1480
reads largestTS.t on the first reader; a single-member set trivially
passes, as does an empty one. The claimed common-starting-point
computation and lockstep comparison are unreachable for any set of two or
more members. -/
theorem c5_ensureOplogsMatch_eval :
    ensureOplogsMatch [[⟨1, 1⟩, ⟨2, 1⟩], [⟨1, 1⟩, ⟨2, 1⟩]] =
        .error .nullRead
    ∧ ensureOplogsMatch [[⟨1, 1⟩, ⟨2, 1⟩], [⟨1, 1⟩, ⟨2, 1⟩], [⟨1, 1⟩, ⟨2, 1⟩]] =
        .error .nullRead
    ∧ ensureOplogsMatch [[⟨1, 1⟩, ⟨2, 1⟩]] = .ok ()
    ∧ ensureOplogsMatch [] = .ok () :=
  ⟨rfl, rfl, rfl, rfl⟩

/-! ## dumpCollectionDiff (source lines 899-957)

Documents are modelled by their primary key underscore-id (compared by
bsonWoCompare, here an integer) and an opaque content payload;
bsonBinaryEqual is structural equality of the pair. Both sides are
fetched sorted ascending by primary key (line 905-906) and walked from
the tail by decrementing indices (lines 908-947), which is exactly head
recursion over the reversed lists. -/

/-- A document: primary key and opaque remaining content. -/
structure Doc where
  id : Int
  data : Nat
deriving DecidableEq

/-- The recorded output of the walk: the documents found missing on the
primary and on the secondary (lines 911-912, in push order) and the
mismatched equal-key pairs (printed at lines 926-928). -/
structure DiffResult where
  missingOnPrimary : List Doc
  missingOnSecondary : List Doc
  mismatched : List (Doc × Doc)
deriving DecidableEq

/-- The while loop of lines 914-947 on the reversed (descending) lists:
one side exhausted drains the other; equal documents advance both;
binary-unequal documents with equal keys record a mismatched pair and
advance both; otherwise the document with the larger key is recorded as
missing on the other side and only that side advances. -/
def collDiffWalk : List Doc → List Doc → DiffResult
  | [], [] => ⟨[], [], []⟩
  | [], s :: srest =>
    let r := collDiffWalk [] srest
    ⟨s :: r.missingOnPrimary, r.missingOnSecondary, r.mismatched⟩
  | p :: prest, [] =>
    let r := collDiffWalk prest []
    ⟨r.missingOnPrimary, p :: r.missingOnSecondary, r.mismatched⟩
  | p :: prest, s :: srest =>
    if p = s then collDiffWalk prest srest
    else if p.id = s.id then
      let r := collDiffWalk prest srest
      ⟨r.missingOnPrimary, r.missingOnSecondary, (p, s) :: r.mismatched⟩
    else if p.id < s.id then
      let r := collDiffWalk (p :: prest) srest
      ⟨s :: r.missingOnPrimary, r.missingOnSecondary, r.mismatched⟩
    else
      let r := collDiffWalk prest (s :: srest)
      ⟨r.missingOnPrimary, p :: r.missingOnSecondary, r.mismatched⟩
termination_by l1 l2 => l1.length + l2.length

/-- Source lines 899-957: fetch both sides ascending by primary key and
walk them from the tail. -/
def dumpCollectionDiff (primaryDocs secondaryDocs : List Doc) : DiffResult :=
  collDiffWalk primaryDocs.reverse secondaryDocs.reverse

/-- Walking two identical lists records nothing. -/
theorem collDiffWalk_self (l : List Doc) : collDiffWalk l l = ⟨[], [], []⟩ := by
  induction l with
  | nil => simp [collDiffWalk]
  | cons p rest ih => simp [collDiffWalk, ih]

/-- Inserting one extra document anywhere into a strictly descending list
and walking the original against the extended list records exactly that
document as missing on the primary. -/
theorem collDiffWalk_insert (extra : Doc) (d1 d2 : List Doc)
    (h : List.Chain' (fun a b => b.id < a.id) (d1 ++ extra :: d2)) :
    collDiffWalk (d1 ++ d2) (d1 ++ extra :: d2) = ⟨[extra], [], []⟩ := by
  induction d1 with
  | nil =>
    rw [List.nil_append, List.nil_append]
    cases d2 with
    | nil => simp [collDiffWalk]
    | cons d rest =>
      have hlt : d.id < extra.id := (List.chain'_cons.mp h).1
      have hne : d ≠ extra := by
        intro he
        rw [he] at hlt
        omega
      have hidne : d.id ≠ extra.id := by omega
      simp [collDiffWalk, hne, hidne, hlt, collDiffWalk_self]
  | cons d d1 ih =>
    rw [List.cons_append, List.cons_append]
    have hstep : collDiffWalk (d :: (d1 ++ d2)) (d :: (d1 ++ extra :: d2)) =
        collDiffWalk (d1 ++ d2) (d1 ++ extra :: d2) := by
      simp [collDiffWalk]
    rw [hstep]
    exact ih h.tail

/-- Claim C6: the divergence dump walks both primary-key-ordered document
lists from the tail with a three-way merge — equal keys with equal
content advance both sides; equal keys with differing content record a
mismatched pair and advance both; differing keys record the document with
the larger key as missing on the other side and advance only that side;
an exhausted side drains the other — and on two members that differ only
by one document present solely on the secondary (member B), the result
has exactly that one entry missing on the primary (member A) and nothing
else. -/
theorem c6_dumpCollectionDiff_merge :
    (∀ (p s : Doc) (prest srest : List Doc), p = s →
      collDiffWalk (p :: prest) (s :: srest) = collDiffWalk prest srest)
    ∧ (∀ (p s : Doc) (prest srest : List Doc), p ≠ s → p.id = s.id →
      collDiffWalk (p :: prest) (s :: srest) =
        ⟨(collDiffWalk prest srest).missingOnPrimary,
         (collDiffWalk prest srest).missingOnSecondary,
         (p, s) :: (collDiffWalk prest srest).mismatched⟩)
    ∧ (∀ (p s : Doc) (prest srest : List Doc), p.id < s.id →
      collDiffWalk (p :: prest) (s :: srest) =
        ⟨s :: (collDiffWalk (p :: prest) srest).missingOnPrimary,
         (collDiffWalk (p :: prest) srest).missingOnSecondary,
         (collDiffWalk (p :: prest) srest).mismatched⟩)
    ∧ (∀ (p s : Doc) (prest srest : List Doc), s.id < p.id →
      collDiffWalk (p :: prest) (s :: srest) =
        ⟨(collDiffWalk prest (s :: srest)).missingOnPrimary,
         p :: (collDiffWalk prest (s :: srest)).missingOnSecondary,
         (collDiffWalk prest (s :: srest)).mismatched⟩)
    ∧ (∀ l : List Doc, dumpCollectionDiff l l = ⟨[], [], []⟩)
    ∧ (∀ (pre post : List Doc) (extra : Doc),
      List.Chain' (fun a b => a.id < b.id) (pre ++ extra :: post) →
      dumpCollectionDiff (pre ++ post) (pre ++ extra :: post) =
        ⟨[extra], [], []⟩) := by
  refine ⟨?_, ?_, ?_, ?_, ?_, ?_⟩
  · intro p s prest srest h
    simp [collDiffWalk, h]
  · intro p s prest srest h1 h2
    simp [collDiffWalk, h1, h2]
  · intro p s prest srest h
    have hidne : p.id ≠ s.id := by omega
    have hne : p ≠ s := by
      intro he
      rw [he] at hidne
      exact hidne rfl
    simp [collDiffWalk, hne, hidne, h]
  · intro p s prest srest h
    have hidne : p.id ≠ s.id := by omega
    have hnlt : ¬ p.id < s.id := by omega
    have hne : p ≠ s := by
      intro he
      rw [he] at hidne
      exact hidne rfl
    simp [collDiffWalk, hne, hidne, hnlt]
  · intro l
    rw [dumpCollectionDiff]
    exact collDiffWalk_self l.reverse
  · intro pre post extra h
    rw [dumpCollectionDiff]
    have h1 : (pre ++ post).reverse = post.reverse ++ pre.reverse :=
      List.reverse_append pre post
    have h2 : (pre ++ extra :: post).reverse =
        post.reverse ++ extra :: pre.reverse := by
      rw [List.reverse_append]
      simp
    rw [h1, h2]
    refine collDiffWalk_insert extra post.reverse pre.reverse ?_
    have hrev : List.Chain' (flip fun a b : Doc => b.id < a.id)
        (pre ++ extra :: post) := h
    have := List.chain'_reverse.mpr hrev
    rw [h2] at this
    exact this

/-- Witness for claim C6: each hypothesized conjunct of the merge theorem
applied at a concrete input, ending with the one-extra-document scenario
on concrete ascending lists. -/
theorem c6_dumpCollectionDiff_merge_witness :
    collDiffWalk [⟨1, 1⟩] [⟨1, 1⟩] = collDiffWalk [] []
    ∧ collDiffWalk [⟨1, 1⟩] [⟨1, 2⟩] =
        ⟨(collDiffWalk [] []).missingOnPrimary,
         (collDiffWalk [] []).missingOnSecondary,
         ((⟨1, 1⟩ : Doc), (⟨1, 2⟩ : Doc)) :: (collDiffWalk [] []).mismatched⟩
    ∧ collDiffWalk [⟨1, 1⟩] [⟨2, 2⟩] =
        ⟨(⟨2, 2⟩ : Doc) :: (collDiffWalk [⟨1, 1⟩] []).missingOnPrimary,
         (collDiffWalk [⟨1, 1⟩] []).missingOnSecondary,
         (collDiffWalk [⟨1, 1⟩] []).mismatched⟩
    ∧ collDiffWalk [⟨3, 1⟩] [⟨2, 2⟩] =
        ⟨(collDiffWalk [] [⟨2, 2⟩]).missingOnPrimary,
         (⟨3, 1⟩ : Doc) :: (collDiffWalk [] [⟨2, 2⟩]).missingOnSecondary,
         (collDiffWalk [] [⟨2, 2⟩]).mismatched⟩
    ∧ dumpCollectionDiff [⟨1, 10⟩, ⟨5, 50⟩] [⟨1, 10⟩, ⟨3, 30⟩, ⟨5, 50⟩] =
        ⟨[⟨3, 30⟩], [], []⟩ :=
  ⟨c6_dumpCollectionDiff_merge.1 ⟨1, 1⟩ ⟨1, 1⟩ [] [] rfl,
   c6_dumpCollectionDiff_merge.2.1 ⟨1, 1⟩ ⟨1, 2⟩ [] [] (by decide) rfl,
   c6_dumpCollectionDiff_merge.2.2.1 ⟨1, 1⟩ ⟨2, 2⟩ [] [] (by decide),
   c6_dumpCollectionDiff_merge.2.2.2.1 ⟨3, 1⟩ ⟨2, 2⟩ [] [] (by decide),
   c6_dumpCollectionDiff_merge.2.2.2.2.2 [⟨1, 10⟩] [⟨5, 50⟩] ⟨3, 30⟩
     (by norm_num [List.chain'_cons])⟩

/-! ## checkDBHashesForReplSet (source lines 959-1114)

The per-database, per-secondary comparison is embedded as a pure success
computation over the observed inputs: the primary dbhash collections map
together with the primary isCapped classification (lines 1024-1025), the
secondary dbhash collections map, the two database-level md5 values, the
two getCollectionInfos lists, and the two collStats views. The source
folds each detected discrepancy into a single success flag that is never
reset, so overall success is the conjunction of the individual checks. -/

/-- One entry of the primary dbhash collections map, together with the
primary isCapped classification for that name (line 1025). -/
structure PrimColl where
  name : String
  hash : String
  isCapped : Bool
deriving DecidableEq

/-- One entry of the secondary dbhash collections map. -/
structure SecColl where
  name : String
  hash : String
deriving DecidableEq

/-- One entry of a getCollectionInfos list: the name plus the rest of the
info document, opaque and compared by bsonBinaryEqual (lines 1044-1061). -/
structure CollMeta where
  name : String
  info : Nat
deriving DecidableEq

/-- The collStats fields compared at lines 1076-1078. -/
structure CollStats where
  capped : Bool
  nindexes : Nat
  ns : String
deriving DecidableEq

/-- Everything one secondary comparison for one database observes. -/
structure DBHashInput where
  primaryColls : List PrimColl
  secondaryColls : List SecColl
  primaryMd5 : String
  secondaryMd5 : String
  primaryInfos : List CollMeta
  secondaryInfos : List CollMeta
  primaryStats : String → CollStats
  secondaryStats : String → CollStats

/-- Property lookup on the secondary dbhash collections map; none models
an undefined property. -/
def lookupSecondaryHash (colls : List SecColl) (n : String) : Option String :=
  (colls.find? (fun c => c.name = n)).map SecColl.hash

/-- Lines 1009-1012: the two collections maps must list the same number
of namespaces. -/
def countOk (inp : DBHashInput) : Bool :=
  inp.primaryColls.length = inp.secondaryColls.length

/-- Lines 1024-1025: the primary namespaces classified non-capped by the
primary. -/
def nonCappedColls (inp : DBHashInput) : List PrimColl :=
  inp.primaryColls.filter (fun c => ¬ c.isCapped)

/-- Lines 1029-1040: only non-capped namespaces have their hashes
compared; a namespace absent from the secondary map compares unequal. -/
def hashesOk (inp : DBHashInput) : Bool :=
  (nonCappedColls inp).all
    (fun c => lookupSecondaryHash inp.secondaryColls c.name = some c.hash)

/-- Lines 1044-1061: every pair of same-named collection infos must be
binary-equal. -/
def metaOk (inp : DBHashInput) : Bool :=
  inp.secondaryInfos.all (fun si =>
    inp.primaryInfos.all (fun pi =>
      decide (si.name = pi.name → si.info = pi.info)))

/-- Lines 1068-1088: capped flag, index count and canonical name from
collStats must match for every primary namespace. -/
def statsOk (inp : DBHashInput) : Bool :=
  inp.primaryColls.all (fun c =>
    decide ((inp.primaryStats c.name).capped =
        (inp.secondaryStats c.name).capped ∧
      (inp.primaryStats c.name).nindexes =
        (inp.secondaryStats c.name).nindexes ∧
      (inp.primaryStats c.name).ns = (inp.secondaryStats c.name).ns))

/-- Lines 1090-1100: the database-level md5 values are compared only when
every primary namespace is non-capped (the filtered list has full
length). -/
def md5Ok (inp : DBHashInput) : Bool :=
  if (nonCappedColls inp).length = inp.primaryColls.length then
    decide (inp.primaryMd5 = inp.secondaryMd5)
  else true

/-- The success flag for one database and one secondary: true exactly
when no check at lines 1012-1100 flagged a discrepancy. -/
def checkDBHashesSuccess (inp : DBHashInput) : Bool :=
  countOk inp && hashesOk inp && metaOk inp && statsOk inp && md5Ok inp

/-- Replacing the hash the secondary map reports for the namespaces named
n (leaving names, counts and everything else unchanged). -/
def setSecondaryHash (inp : DBHashInput) (n v : String) : DBHashInput :=
  { inp with
    secondaryColls := inp.secondaryColls.map
      (fun c => if c.name = n then ⟨c.name, v⟩ else c) }

/-- Claim C7 counterexample input: namespaces a (non-capped, hashes
matching) and b (capped on the primary), equal counts, equal metadata and
stats, but differing database-level md5 values. -/
def c7CexInput : DBHashInput where
  primaryColls := [⟨"a", "h1", false⟩, ⟨"b", "h2", true⟩]
  secondaryColls := [⟨"a", "h1"⟩, ⟨"b", "h2"⟩]
  primaryMd5 := "m1"
  secondaryMd5 := "m2"
  primaryInfos := [⟨"a", 0⟩, ⟨"b", 0⟩]
  secondaryInfos := [⟨"a", 0⟩, ⟨"b", 0⟩]
  primaryStats := fun _ => ⟨false, 1, "x"⟩
  secondaryStats := fun _ => ⟨false, 1, "x"⟩

/-- A fully matching single-namespace input with no capped namespace. -/
def c7AllGoodInput : DBHashInput where
  primaryColls := [⟨"a", "h1", false⟩]
  secondaryColls := [⟨"a", "h1"⟩]
  primaryMd5 := "m"
  secondaryMd5 := "m"
  primaryInfos := [⟨"a", 0⟩]
  secondaryInfos := [⟨"a", 0⟩]
  primaryStats := fun _ => ⟨false, 1, "x"⟩
  secondaryStats := fun _ => ⟨false, 1, "x"⟩

/-- Claim C7 counterexample: with one capped namespace present, every
non-capped hash matching, metadata matching and counts matching, the
verification succeeds even though the database-level aggregate md5
values differ — the md5 comparison is guarded by the absence of capped
namespaces, not by the conditions the claim lists. -/
theorem c7_md5_guard_cex :
    hashesOk c7CexInput = true
    ∧ metaOk c7CexInput = true
    ∧ countOk c7CexInput = true
    ∧ statsOk c7CexInput = true
    ∧ checkDBHashesSuccess c7CexInput = true
    ∧ c7CexInput.primaryMd5 ≠ c7CexInput.secondaryMd5 := by
  refine ⟨rfl, rfl, rfl, rfl, rfl, ?_⟩
  decide

/-- Auxiliary: all over the same list with pointwise equal predicates. -/
theorem listAllCongrMem {α : Type} (l : List α) (f g : α → Bool)
    (h : ∀ x ∈ l, f x = g x) : l.all f = l.all g := by
  induction l with
  | nil => rfl
  | cons a rest ih =>
    simp only [List.all_cons, h a (by simp)]
    rw [ih (fun x hx => h x (by simp [hx]))]

/-- Auxiliary: rewriting the hash of the namespaces named n does not
change the lookup for any other name. -/
theorem lookupSecondaryHash_set_ne (colls : List SecColl) (n v m : String)
    (h : m ≠ n) :
    lookupSecondaryHash
        (colls.map (fun c => if c.name = n then ⟨c.name, v⟩ else c)) m =
      lookupSecondaryHash colls m := by
  induction colls with
  | nil => simp [lookupSecondaryHash]
  | cons c rest ih =>
    by_cases hm : c.name = m
    · have hc : ¬ c.name = n := fun he => h (hm.symm.trans he)
      rw [lookupSecondaryHash, lookupSecondaryHash, List.map_cons, if_neg hc,
        List.find?_cons_of_pos _ (by simp [hm]),
        List.find?_cons_of_pos _ (by simp [hm])]
    · by_cases hc : c.name = n
      · rw [lookupSecondaryHash, lookupSecondaryHash, List.map_cons,
          if_pos hc,
          List.find?_cons_of_neg _ (by simp [hm]),
          List.find?_cons_of_neg _ (by simp [hm])]
        exact ih
      · rw [lookupSecondaryHash, lookupSecondaryHash, List.map_cons,
          if_neg hc,
          List.find?_cons_of_neg _ (by simp [hm]),
          List.find?_cons_of_neg _ (by simp [hm])]
        exact ih

/-- Claim C7 (amended): a capped namespace is excluded from the
per-namespace hash pass/fail comparison — replacing the hash the
secondary reports for a namespace that is capped on the primary never
changes the verdict — and when every namespace is non-capped, a
successful verification (which then requires all hashes, metadata and
counts to match) forces the database-level aggregate md5 values to
match; with a capped namespace present the md5 values are not checked at
all. -/
theorem c7_dbhash_capped_md5 :
    (∀ (inp : DBHashInput) (n v : String),
      inp.primaryColls.all (fun c => decide (c.name = n → c.isCapped = true))
          = true →
      checkDBHashesSuccess (setSecondaryHash inp n v) =
        checkDBHashesSuccess inp)
    ∧ (∀ inp : DBHashInput,
      inp.primaryColls.all (fun c => !c.isCapped) = true →
      checkDBHashesSuccess inp = true →
      inp.primaryMd5 = inp.secondaryMd5) := by
  constructor
  · intro inp n v hcap
    have hcount : countOk (setSecondaryHash inp n v) = countOk inp := by
      simp [countOk, setSecondaryHash]
    have hnc : nonCappedColls (setSecondaryHash inp n v) = nonCappedColls inp
        := by
      simp [nonCappedColls, setSecondaryHash]
    have hhash : hashesOk (setSecondaryHash inp n v) = hashesOk inp := by
      rw [hashesOk, hashesOk, hnc]
      refine listAllCongrMem (nonCappedColls inp) _ _ ?_
      intro c hcmem
      have hcnc : c ∈ inp.primaryColls ∧ ¬ c.isCapped := by
        have := List.mem_filter.mp hcmem
        constructor
        · exact this.1
        · have h2 := this.2
          simpa using h2
      have hne : c.name ≠ n := by
        intro he
        have := of_decide_eq_true
          ((List.all_eq_true.mp hcap) c hcnc.1)
        rw [this he] at hcnc
        exact hcnc.2 rfl
      rw [show (setSecondaryHash inp n v).secondaryColls =
          inp.secondaryColls.map
            (fun c => if c.name = n then ⟨c.name, v⟩ else c) from rfl]
      rw [lookupSecondaryHash_set_ne inp.secondaryColls n v c.name hne]
    have hmeta : metaOk (setSecondaryHash inp n v) = metaOk inp := by
      simp [metaOk, setSecondaryHash]
    have hstats : statsOk (setSecondaryHash inp n v) = statsOk inp := by
      simp [statsOk, setSecondaryHash]
    have hmd5 : md5Ok (setSecondaryHash inp n v) = md5Ok inp := by
      rw [md5Ok, md5Ok, hnc]
      rfl
    rw [checkDBHashesSuccess, checkDBHashesSuccess, hcount, hhash, hmeta,
      hstats, hmd5]
  · intro inp hnc hsucc
    have hfull : nonCappedColls inp = inp.primaryColls := by
      rw [nonCappedColls]
      refine List.filter_eq_self.mpr ?_
      intro c hc
      have := (List.all_eq_true.mp hnc) c hc
      simpa using this
    have hmd5 : md5Ok inp = true := by
      rw [checkDBHashesSuccess] at hsucc
      simp only [Bool.and_eq_true] at hsucc
      exact hsucc.2
    rw [md5Ok, hfull, if_pos rfl] at hmd5
    exact of_decide_eq_true hmd5

/-- Witness for claim C7: both conjuncts of the amended theorem applied
at concrete inputs — changing the capped namespace hash on the
counterexample input does not change the verdict, and the all-non-capped
matching input forces equal md5 values. -/
theorem c7_dbhash_capped_md5_witness :
    checkDBHashesSuccess (setSecondaryHash c7CexInput "b" "zzz") =
        checkDBHashesSuccess c7CexInput
    ∧ c7AllGoodInput.primaryMd5 = c7AllGoodInput.secondaryMd5 :=
  ⟨c7_dbhash_capped_md5.1 c7CexInput "b" "zzz" (by decide),
   c7_dbhash_capped_md5.2 c7AllGoodInput (by decide) (by rfl)⟩

/-! ## The leadership scan (source lines 110-136)

The nodes are identified by their index; each observation is none when
the ismaster call threw (the node is skipped with a print, line 127-129)
and some b when it returned with ismaster equal to b. -/

/-- The liveNodes bookkeeping rebuilt by the scan (lines 95-97): the
first node that claimed mastership, and the nodes pushed to slaves. -/
structure LiveNodes where
  master : Option Nat
  slaves : List Nat
deriving DecidableEq

/-- The forEach loop of lines 114-130, threading the node index, the
liveNodes accumulator and the twoPrimaries flag. -/
def callIsMasterAux (i : Nat) (acc : LiveNodes) (twoP : Bool) :
    List (Option Bool) → LiveNodes × Bool
  | [] => (acc, twoP)
  | r :: rest =>
    match r with
    | none => callIsMasterAux (i + 1) acc twoP rest
    | some true =>
      if acc.master.isSome then callIsMasterAux (i + 1) acc true rest
      else callIsMasterAux (i + 1) { acc with master := some i } twoP rest
    | some false =>
      callIsMasterAux (i + 1) { acc with slaves := acc.slaves ++ [i] } twoP
        rest

/-- Source lines 110-136: run the scan and return the rebuilt liveNodes
together with the result of callIsMaster — none (false in the source)
when two primaries were seen or no master was found, otherwise the
master. -/
def callIsMaster (resps : List (Option Bool)) : LiveNodes × Option Nat :=
  let (ln, twoP) := callIsMasterAux 0 ⟨none, []⟩ false resps
  (ln, if twoP then none else ln.master)

/-- The number of nodes reporting ismaster true in a scan. -/
def countPrimaries (resps : List (Option Bool)) : Nat :=
  resps.countP (fun r => r = some true)

/-- The twoPrimaries flag ends true whenever it starts true. -/
theorem callIsMasterAux_sticky (resps : List (Option Bool)) (i : Nat)
    (acc : LiveNodes) : (callIsMasterAux i acc true resps).2 = true := by
  induction resps generalizing i acc with
  | nil => rfl
  | cons r rest ih =>
    match r with
    | none => exact ih (i + 1) acc
    | some true =>
      rw [callIsMasterAux]
      split_ifs <;> exact ih (i + 1) _
    | some false => exact ih (i + 1) _

/-- With a master already recorded, one further claimed mastership sets
the flag. -/
theorem callIsMasterAux_second (resps : List (Option Bool)) (i : Nat)
    (acc : LiveNodes) (hm : acc.master.isSome = true)
    (hc : 1 ≤ countPrimaries resps) :
    (callIsMasterAux i acc false resps).2 = true := by
  induction resps generalizing i acc with
  | nil => simp [countPrimaries] at hc
  | cons r rest ih =>
    match r with
    | none =>
      rw [callIsMasterAux]
      exact ih (i + 1) acc hm (by simpa [countPrimaries] using hc)
    | some true =>
      rw [callIsMasterAux, if_pos hm]
      exact callIsMasterAux_sticky rest (i + 1) acc
    | some false =>
      rw [callIsMasterAux]
      exact ih (i + 1) _ hm (by simpa [countPrimaries] using hc)

/-- Two claimed masterships anywhere in the scan set the flag. -/
theorem callIsMasterAux_two (resps : List (Option Bool)) (i : Nat)
    (acc : LiveNodes) (hc : 2 ≤ countPrimaries resps) :
    (callIsMasterAux i acc false resps).2 = true := by
  induction resps generalizing i acc with
  | nil => simp [countPrimaries] at hc
  | cons r rest ih =>
    match r with
    | none =>
      rw [callIsMasterAux]
      exact ih (i + 1) acc (by simpa [countPrimaries] using hc)
    | some true =>
      rw [callIsMasterAux]
      split_ifs with hm
      · exact callIsMasterAux_sticky rest (i + 1) acc
      · refine callIsMasterAux_second rest (i + 1) _ rfl ?_
        have : countPrimaries (some true :: rest) =
            countPrimaries rest + 1 := by
          simp [countPrimaries]
        omega
    | some false =>
      rw [callIsMasterAux]
      exact ih (i + 1) _ (by simpa [countPrimaries] using hc)

/-- Claim C8: whenever more than one node reports itself master in a
scan, the scan result reports no current leader (the source returns
false) instead of an arbitrarily chosen one — so at most one node is
ever classified leader by a scan that reports one. -/
theorem c8_two_primaries_no_leader (resps : List (Option Bool))
    (h : 2 ≤ countPrimaries resps) : (callIsMaster resps).2 = none := by
  rw [callIsMaster]
  rcases haux : callIsMasterAux 0 ⟨none, []⟩ false resps with ⟨ln, twoP⟩
  have : twoP = true := by
    have h2 := callIsMasterAux_two resps 0 ⟨none, []⟩ h
    rw [haux] at h2
    exact h2
  simp [this]

/-- Witness for claim C8: the theorem applied to a concrete scan with two
simultaneous ismaster-true reports. -/
theorem c8_two_primaries_no_leader_witness :
    (callIsMaster [some true, some false, some true]).2 = none :=
  c8_two_primaries_no_leader [some true, some false, some true] (by decide)

/-! ## The timeout defaulting slip (source line 88 versus lines 159, 476,
500, 540, 553, 629, 718 and 1134)

The constructor stores the five-minute default under the property name
kDefaultTimeoutMs (line 88, lowercase s), while every defaulting
expression reads self.kDefaultTimeoutMS (uppercase S), a property that is
never assigned anywhere, so the read yields undefined and the
or-defaulting keeps undefined whenever the caller omitted the timeout. -/

/-- A JavaScript value as far as the timeout plumbing needs: undefined or
a number. -/
inductive JsVal where
  | jsUndefined
  | num (n : Nat)
deriving DecidableEq

/-- Property read on an object represented by its assigned fields;
a missing property reads as undefined. -/
def readField (fields : List (String × JsVal)) (k : String) : JsVal :=
  (((fields.find? (fun p => p.1 = k)).map Prod.snd)).getD .jsUndefined

/-- JavaScript truthiness on the modelled values: undefined and 0 are
falsy. -/
def jsTruthy : JsVal → Bool
  | .jsUndefined => false
  | .num n => n ≠ 0

/-- The JavaScript or-operator on the modelled values. -/
def jsOr (a b : JsVal) : JsVal := if jsTruthy a then a else b

/-- The timeout-related properties the ReplSetTest constructor ever
assigns on the object: exactly kDefaultTimeoutMs at line 88. -/
def replSetTestFields : List (String × JsVal) :=
  [("kDefaultTimeoutMs", .num 300000)]

/-- The defaulting expression timeout or self.kDefaultTimeoutMS shared by
waitForIndicator (line 159), awaitSecondaryNodes (line 476),
awaitNodesAgreeOnPrimary (line 500), getPrimary (line 540), awaitNoPrimary
(line 553), initiate (line 629) and awaitReplication (line 718). -/
def resolveTimeout (passed : JsVal) : JsVal :=
  jsOr passed (readField replSetTestFields "kDefaultTimeoutMS")

/-- Claim C10: the default is stored under kDefaultTimeoutMs but every
defaulting expression reads the never-assigned kDefaultTimeoutMS, so
omitting the timeout (passing undefined) resolves the effective timeout
to undefined, not to the constructed five-minute default. -/
theorem c10_timeout_default_undefined :
    readField replSetTestFields "kDefaultTimeoutMs" = .num 300000
    ∧ readField replSetTestFields "kDefaultTimeoutMS" = .jsUndefined
    ∧ resolveTimeout .jsUndefined = .jsUndefined
    ∧ resolveTimeout .jsUndefined ≠ .num 300000
    ∧ resolveTimeout (.num 7000) = .num 7000 := by
  decide

end ReplSet
